import Mathlib

/-!
Shallow embedding of the Gardio MetaMask snap keyring (`src/keyring.ts`,
class `SimpleKeyring`).  JavaScript objects of type `Record<string, Json>`
are modelled as association lists with string keys; the `wallets` and
`pendingRequests` maps of `KeyringState` likewise.  Each public operation
becomes a pure function from the state (plus the operation's arguments) to
a result, the post-state, and a trace of Gateway effects (persist / emit).
The outcome of the single `emitSnapKeyringEvent` call an operation makes is
supplied as an oracle argument `emitRes : Except String Unit` (the host may
throw an arbitrary error message).  `saveState` is modelled as an effect
that always succeeds and is recorded in the trace.
-/

/-- JSON values (`Json` of `@metamask/utils`). -/
inductive Json where
  | null
  | bool (b : Bool)
  | num (n : Int)
  | str (s : String)
  | arr (elems : List Json)
  | obj (fields : List (String × Json))

/-- Property lookup on a JavaScript object: `m[k]`, `undefined` when absent. -/
def lookupKey {α : Type} : List (String × α) → String → Option α
  | [], _ => none
  | p :: rest, k => if p.1 = k then some p.2 else lookupKey rest k

/-- Property assignment on a JavaScript object: `m[k] = v` replaces the value
in place when the key exists and appends otherwise. -/
def setKey {α : Type} : List (String × α) → String → α → List (String × α)
  | [], k, v => [(k, v)]
  | p :: rest, k, v => if p.1 = k then (k, v) :: rest else p :: setKey rest k v

/-- Property removal on a JavaScript object: `delete m[k]`. -/
def delKey {α : Type} : List (String × α) → String → List (String × α)
  | [], _ => []
  | p :: rest, k => if p.1 = k then delKey rest k else p :: delKey rest k

/- String values of the `EthMethod` enum of `@metamask/keyring-api`. -/
namespace EthMethod

def personalSign : String := "personal_sign"

def sign : String := "eth_sign"

def signTransaction : String := "eth_signTransaction"

def signTypedDataV1 : String := "eth_signTypedData_v1"

def signTypedDataV3 : String := "eth_signTypedData_v3"

def signTypedDataV4 : String := "eth_signTypedData_v4"

def prepareUserOperation : String := "eth_prepareUserOperation"

def patchUserOperation : String := "eth_patchUserOperation"

def signUserOperation : String := "eth_signUserOperation"

end EthMethod

/-- String value of `EthAccountType.Eoa`. -/
def EthAccountType.eoa : String := "eip155:eoa"

/-- `KeyringAccount` of `@metamask/keyring-api`. -/
structure KeyringAccount where
  id : String
  options : List (String × Json)
  address : String
  methods : List String
  type : String

/-- Inner `request` field of a `KeyringRequest`. -/
structure InnerRequest where
  method : String
  params : Option Json

/-- `KeyringRequest` of `@metamask/keyring-api`. -/
structure KeyringRequest where
  id : String
  scope : String
  account : String
  request : InnerRequest

/-- `Wallet` of `src/keyring.ts`.  `hdPath` holds the looked-up
`options.hdPath` value (`undefined` when absent, hence an `Option`). -/
structure Wallet where
  account : KeyringAccount
  hdPath : Option Json
  pendingCreation : Bool

/-- `KeyringState` of `src/keyring.ts`. -/
structure KeyringState where
  wallets : List (String × Wallet)
  pendingRequests : List (String × KeyringRequest)
  useSyncApprovals : Bool

/-- Modelled from the spec: the operations fail by raising errors through the
helper `throwError` of `src/util.ts` (not among the provided sources); the
spec's error taxonomy gives the kinds below, matched to the message each call
site passes.  `emitFail` carries the message of a failed host notification,
which `approveRequest`, `updateAccount`, `deleteAccount` and `createAccount`
rethrow and `rejectRequest` lets propagate. -/
inductive KErr where
  | notFound
  | duplicateAddress
  | invalidData
  | unsupportedMethod
  | emitFail (msg : String)
deriving DecidableEq

/-- Value bound to the `result` local of `approveRequest`: initialized to the
empty array, then either the string payload or the data object. -/
inductive ApproveResult where
  | emptyList
  | str (s : String)
  | obj (fields : List (String × Json))

/-- Gateway effects, in the order the operation performs them.  Emission
effects record the call being made (its outcome is the `emitRes` oracle). -/
inductive Effect where
  | persist
  | emitAccountCreated (account : KeyringAccount) (accountNameSuggestion : String)
  | emitAccountUpdated (account : KeyringAccount)
  | emitAccountDeleted (id : String)
  | emitRequestApproved (id : String) (result : ApproveResult)
  | emitRequestRejected (id : String)

/-- Outcome of one operation: its result or error, the post-state, and the
trace of Gateway effects it performed (in order). -/
structure OpOut (α : Type) where
  res : Except KErr α
  state : KeyringState
  trace : List Effect

/-- `listAccounts` of `SimpleKeyring`. -/
def listAccounts (s : KeyringState) : List KeyringAccount :=
  s.wallets.map (fun p => p.2.account)

/-- `getAccount` of `SimpleKeyring`. -/
def getAccount (s : KeyringState) (id : String) : Except KErr KeyringAccount :=
  match lookupKey s.wallets id with
  | some w => Except.ok w.account
  | none => Except.error KErr.notFound

/-- Modelled from the spec: `isUniqueAddress` of `src/util.ts` is not among
the provided sources.  Per the spec, `createAccount` "requires
`options.address` to be a non-empty string not already used by any existing
wallet"; this helper is that check, applied to the looked-up
`options.address` value and `Object.values(state.wallets)`. -/
def isUniqueAddress (address : Option Json) (wallets : List Wallet) : Bool :=
  match address with
  | some (Json.str a) => a != "" && wallets.all (fun w => w.account.address != a)
  | _ => false

/-- Value of `options.address as string` once the uniqueness check passed. -/
def castAddress (options : List (String × Json)) : String :=
  match lookupKey options "address" with
  | some (Json.str a) => a
  | _ => ""

/-- Fixed capability set attached to every created account. -/
def accountMethods : List String :=
  [EthMethod.personalSign, EthMethod.sign, EthMethod.signTransaction,
   EthMethod.signTypedDataV1, EthMethod.signTypedDataV3, EthMethod.signTypedDataV4]

/-- The account object literal built by `createAccount`. -/
def mkAccount (freshId : String) (options : List (String × Json))
    (address : String) : KeyringAccount :=
  { id := freshId, options := options, address := address,
    methods := accountMethods, type := EthAccountType.eoa }

/-- `createAccount` of `SimpleKeyring`.  `freshId` stands for the generated
`v4()` uuid.  The wallet is first stored with `pendingCreation := true`, the
`AccountCreated` event is emitted with a name suggestion derived from the
wallet count, and only after a successful emission is the wallet re-stored
with `pendingCreation := false` and the state persisted; an emission failure
is rethrown by the surrounding catch. -/
def createAccount (s : KeyringState) (options : List (String × Json))
    (freshId : String) (emitRes : Except String Unit) : OpOut KeyringAccount :=
  if isUniqueAddress (lookupKey options "address") (s.wallets.map (fun p => p.2)) then
    let account := mkAccount freshId options (castAddress options)
    let w1 : Wallet :=
      { account := account, hdPath := lookupKey options "hdPath", pendingCreation := true }
    let s1 : KeyringState := { s with wallets := setKey s.wallets freshId w1 }
    let accountIdx := s1.wallets.length
    match emitRes with
    | Except.error msg =>
        ⟨Except.error (KErr.emitFail msg), s1,
         [Effect.emitAccountCreated account ("Gardio Account " ++ toString accountIdx)]⟩
    | Except.ok _ =>
        let w2 : Wallet :=
          { account := account, hdPath := lookupKey options "hdPath", pendingCreation := false }
        let s2 : KeyringState := { s1 with wallets := setKey s1.wallets freshId w2 }
        ⟨Except.ok account, s2,
         [Effect.emitAccountCreated account ("Gardio Account " ++ toString accountIdx),
          Effect.persist]⟩
  else
    ⟨Except.error KErr.duplicateAddress, s, []⟩

/-- `updateAccount` of `SimpleKeyring`.  The merged record takes every field
of the incoming account but restores the stored address; the `AccountUpdated`
event is emitted before the wallet record is mutated, so an emission failure
(rethrown by the catch) leaves the state unchanged. -/
def updateAccount (s : KeyringState) (account : KeyringAccount)
    (emitRes : Except String Unit) : OpOut Unit :=
  match lookupKey s.wallets account.id with
  | none => ⟨Except.error KErr.notFound, s, []⟩
  | some wallet =>
    let newAccount : KeyringAccount := { account with address := wallet.account.address }
    match emitRes with
    | Except.error msg =>
        ⟨Except.error (KErr.emitFail msg), s, [Effect.emitAccountUpdated newAccount]⟩
    | Except.ok _ =>
        ⟨Except.ok (), { s with wallets := setKey s.wallets account.id { wallet with account := newAccount } },
         [Effect.emitAccountUpdated newAccount, Effect.persist]⟩

/-- `deleteAccount` of `SimpleKeyring`.  The `AccountDeleted` event is emitted
first; the wallet entry is deleted and the state persisted only when the
emission did not throw, since the catch rethrows before the deletion runs. -/
def deleteAccount (s : KeyringState) (id : String)
    (emitRes : Except String Unit) : OpOut Unit :=
  match emitRes with
  | Except.error msg =>
      ⟨Except.error (KErr.emitFail msg), s, [Effect.emitAccountDeleted id]⟩
  | Except.ok _ =>
      ⟨Except.ok (), { s with wallets := delKey s.wallets id },
       [Effect.emitAccountDeleted id, Effect.persist]⟩

/-- `listRequests` of `SimpleKeyring`. -/
def listRequests (s : KeyringState) : List KeyringRequest :=
  s.pendingRequests.map (fun p => p.2)

/-- `getRequest` of `SimpleKeyring`. -/
def getRequest (s : KeyringState) (id : String) : Except KErr KeyringRequest :=
  match lookupKey s.pendingRequests id with
  | some r => Except.ok r
  | none => Except.error KErr.notFound

/-- `IsPendingCreation` of `SimpleKeyring`. -/
def IsPendingCreation (s : KeyringState) : Bool :=
  s.wallets.any (fun p => p.2.pendingCreation)

/-- Runtime environment read by `#getCurrentUrl` (`process.env`). -/
structure Env where
  nodeEnv : Option String
  dappOriginProduction : Option String
  dappOriginDevelopment : Option String

/-- `#getCurrentUrl` of `SimpleKeyring`: selects the production or the
development dapp origin from the environment; either may be unset, in which
case the result is `undefined` and no error is raised. -/
def getCurrentUrl (env : Env) : Option String :=
  if env.nodeEnv = some "production" then env.dappOriginProduction
  else env.dappOriginDevelopment

/-- `SubmitRequestResponse` of `@metamask/keyring-api`: either a synchronous
result or a pending acknowledgment carrying a redirect. -/
inductive SubmitResponse where
  | result (r : Json)
  | pendingRedirect (url : Option String) (message : String)

/-- `submitRequest` / `#asyncSubmitRequest` of `SimpleKeyring`: stores the
request keyed by its id (overwriting any previous entry), persists, and
returns the pending acknowledgment with the environment-selected url. -/
def submitRequest (s : KeyringState) (env : Env)
    (request : KeyringRequest) : OpOut SubmitResponse :=
  let s1 : KeyringState :=
    { s with pendingRequests := setKey s.pendingRequests request.id request }
  ⟨Except.ok (SubmitResponse.pendingRedirect (getCurrentUrl env)
      "Redirecting to Gardio Snap to sign transaction"), s1, [Effect.persist]⟩

/-- String content of the `data.data` field when present and a string, the
shape `approveRequest` requires for the string-payload methods
(`data.data !== undefined && typeof data.data === "string"`). -/
def payloadString (d : List (String × Json)) : Option String :=
  match lookupKey d "data" with
  | some (Json.str v) => some v
  | _ => none

/-- String-payload branch group of the `approveRequest` switch. -/
def stringPayloadMethod (m : String) : Bool :=
  m == EthMethod.personalSign || m == EthMethod.sign ||
  m == EthMethod.signTypedDataV1 || m == EthMethod.signTypedDataV3 ||
  m == EthMethod.signTypedDataV4 || m == EthMethod.signUserOperation

/-- Structured-payload branch group of the `approveRequest` switch. -/
def structuredPayloadMethod (m : String) : Bool :=
  m == EthMethod.signTransaction || m == EthMethod.prepareUserOperation ||
  m == EthMethod.patchUserOperation

/-- Validation and shaping of the approval payload in `approveRequest`: the
`undefined` check on `data`, then the switch over the request's method.  For
the string-payload methods `data.data` must be present and a string; for the
structured-payload methods `data` (an object whenever defined, per its
declared type) is taken verbatim; the default branch fails. -/
def shapeResult (method : String)
    (data : Option (List (String × Json))) : Except KErr ApproveResult :=
  match data with
  | none => Except.error KErr.invalidData
  | some d =>
    if stringPayloadMethod method then
      match payloadString d with
      | some v => Except.ok (ApproveResult.str v)
      | none => Except.error KErr.invalidData
    else if structuredPayloadMethod method then
      Except.ok (ApproveResult.obj d)
    else
      Except.error KErr.unsupportedMethod

/-- `approveRequest` of `SimpleKeyring`: looks up the pending request,
validates and shapes the payload, then removes the request (delete and
persist, via `#removePendingRequest`) and emits `RequestApproved`; an
emission failure is rethrown after the removal already happened. -/
def approveRequest (s : KeyringState) (id : String)
    (data : Option (List (String × Json)))
    (emitRes : Except String Unit) : OpOut Unit :=
  match lookupKey s.pendingRequests id with
  | none => ⟨Except.error KErr.notFound, s, []⟩
  | some kr =>
    match shapeResult kr.request.method data with
    | Except.error e => ⟨Except.error e, s, []⟩
    | Except.ok result =>
      let s1 : KeyringState := { s with pendingRequests := delKey s.pendingRequests id }
      match emitRes with
      | Except.error msg =>
          ⟨Except.error (KErr.emitFail msg), s1,
           [Effect.persist, Effect.emitRequestApproved id result]⟩
      | Except.ok _ =>
          ⟨Except.ok (), s1, [Effect.persist, Effect.emitRequestApproved id result]⟩

/-- `rejectRequest` of `SimpleKeyring`: fails when the id is absent, else
removes the request (delete and persist) and emits `RequestRejected`; the
emission is not guarded, so its failure propagates after the removal. -/
def rejectRequest (s : KeyringState) (id : String)
    (emitRes : Except String Unit) : OpOut Unit :=
  match lookupKey s.pendingRequests id with
  | none => ⟨Except.error KErr.notFound, s, []⟩
  | some _ =>
    let s1 : KeyringState := { s with pendingRequests := delKey s.pendingRequests id }
    match emitRes with
    | Except.error msg =>
        ⟨Except.error (KErr.emitFail msg), s1,
         [Effect.persist, Effect.emitRequestRejected id]⟩
    | Except.ok _ =>
        ⟨Except.ok (), s1, [Effect.persist, Effect.emitRequestRejected id]⟩

/-- Account-lifecycle operations, for stating state invariants over
arbitrary call sequences. -/
inductive KOp where
  | create (options : List (String × Json)) (freshId : String) (emitRes : Except String Unit)
  | update (account : KeyringAccount) (emitRes : Except String Unit)
  | delete (id : String) (emitRes : Except String Unit)

/-- Post-state of one account-lifecycle operation (whether it succeeded or
failed). -/
def runOp (s : KeyringState) : KOp → KeyringState
  | KOp.create options freshId emitRes => (createAccount s options freshId emitRes).state
  | KOp.update account emitRes => (updateAccount s account emitRes).state
  | KOp.delete id emitRes => (deleteAccount s id emitRes).state

/-- Post-state of a sequence of account-lifecycle operations. -/
def runOps (s : KeyringState) (ops : List KOp) : KeyringState :=
  ops.foldl runOp s

/-- Well-formedness of the wallet map: the backing object has no duplicate
keys, and no two wallets hold the same address. -/
def WalletsWF (wallets : List (String × Wallet)) : Prop :=
  (wallets.map (fun p => p.1)).Nodup ∧
  List.Pairwise (fun a b => a ≠ b) (wallets.map (fun p => p.2.account.address))

/- Concrete fixtures used to instantiate the theorems below. -/

def emptyState : KeyringState :=
  { wallets := [], pendingRequests := [], useSyncApprovals := false }

/-- A pending request with the given method, queued under id `"r1"`. -/
def sampleReq (m : String) : KeyringRequest :=
  { id := "r1", scope := "eip155:1", account := "acc1",
    request := { method := m, params := none } }

/-- A state whose only pending request is `sampleReq m`. -/
def reqState (m : String) : KeyringState :=
  { wallets := [], pendingRequests := [("r1", sampleReq m)], useSyncApprovals := false }

def sampleAccount : KeyringAccount :=
  mkAccount "a1" [("address", Json.str "0xAAA")] "0xAAA"

def sampleWallet : Wallet :=
  { account := sampleAccount, hdPath := none, pendingCreation := false }

/-- A state whose only wallet is `sampleWallet`, stored under id `"a1"`. -/
def walletState : KeyringState :=
  { wallets := [("a1", sampleWallet)], pendingRequests := [], useSyncApprovals := false }

def sampleEnv : Env :=
  { nodeEnv := some "production",
    dappOriginProduction := some "https://gardiometamasksnap.web.app/",
    dappOriginDevelopment := some "http://localhost:8000/" }

/-- An unconfigured environment: no mode, no endpoints. -/
def noEnv : Env :=
  { nodeEnv := none, dappOriginProduction := none, dappOriginDevelopment := none }

section AssocLemmas

variable {α β : Type}

theorem lookupKey_setKey_self (m : List (String × α)) (k : String) (v : α) :
    lookupKey (setKey m k v) k = some v := by
  induction m with
  | nil => simp [setKey, lookupKey]
  | cons p rest ih =>
    by_cases h : p.1 = k
    · simp [setKey, h, lookupKey]
    · simp [setKey, h, lookupKey, ih]

theorem lookupKey_delKey_self (m : List (String × α)) (k : String) :
    lookupKey (delKey m k) k = none := by
  induction m with
  | nil => simp [delKey, lookupKey]
  | cons p rest ih =>
    by_cases h : p.1 = k
    · simp [delKey, h, ih]
    · simp [delKey, h, lookupKey, ih]

theorem delKey_sublist (m : List (String × α)) (k : String) :
    List.Sublist (delKey m k) m := by
  induction m with
  | nil => simp [delKey]
  | cons p rest ih =>
    by_cases h : p.1 = k
    · simp only [delKey, h, if_pos rfl]
      exact ih.cons p
    · simp only [delKey, h, if_neg h]
      exact ih.cons₂ p

theorem mem_of_lookupKey {m : List (String × α)} {k : String} {v : α}
    (h : lookupKey m k = some v) : (k, v) ∈ m := by
  induction m with
  | nil => simp [lookupKey] at h
  | cons p rest ih =>
    obtain ⟨p1, p2⟩ := p
    by_cases hk : p1 = k
    · subst hk
      simp only [lookupKey, if_true, eq_self_iff_true, Option.some.injEq] at h
      subst h
      exact List.mem_cons_self _ _
    · simp only [lookupKey] at h
      rw [if_neg hk] at h
      exact List.mem_cons_of_mem _ (ih h)

theorem mem_keys_of_lookupKey {m : List (String × α)} {k : String} {v : α}
    (h : lookupKey m k = some v) : k ∈ m.map (fun p => p.1) := by
  exact List.mem_map.mpr ⟨(k, v), mem_of_lookupKey h, rfl⟩

theorem keys_setKey_of_mem {m : List (String × α)} {k : String}
    (h : k ∈ m.map (fun p => p.1)) (v : α) :
    (setKey m k v).map (fun p => p.1) = m.map (fun p => p.1) := by
  induction m with
  | nil => simp at h
  | cons p rest ih =>
    by_cases hk : p.1 = k
    · simp [setKey, hk]
    · simp only [List.map_cons, List.mem_cons] at h
      rcases h with h | h
    
      · exact absurd h.symm hk
      · simp [setKey, hk, ih h]

theorem keys_setKey_of_not_mem {m : List (String × α)} {k : String}
    (h : k ∉ m.map (fun p => p.1)) (v : α) :
    (setKey m k v).map (fun p => p.1) = m.map (fun p => p.1) ++ [k] := by
  induction m with
  | nil => simp [setKey]
  | cons p rest ih =>
    simp only [List.map_cons, List.mem_cons] at h
    push_neg at h
    have hk : ¬ p.1 = k := fun hc => h.1 hc.symm
    simp [setKey, hk, ih h.2]

theorem mem_keys_setKey (m : List (String × α)) (k : String) (v : α) :
    k ∈ (setKey m k v).map (fun p => p.1) := by
  by_cases h : k ∈ m.map (fun p => p.1)
  · rw [keys_setKey_of_mem h]
    exact h
  · rw [keys_setKey_of_not_mem h]
    simp

theorem map_setKey_of_lookupKey (f : String × α → β) {m : List (String × α)}
    {k : String} {w : α} (h : lookupKey m k = some w) (v : α)
    (hf : f (k, v) = f (k, w)) : (setKey m k v).map f = m.map f := by
  induction m with
  | nil => simp [lookupKey] at h
  | cons p rest ih =>
    obtain ⟨p1, p2⟩ := p
    by_cases hk : p1 = k
    · simp only [lookupKey, if_pos hk] at h
      cases h
      cases hk
      simp [setKey, hf]
    · simp only [lookupKey, if_neg hk] at h
      simp [setKey, hk, ih h]

theorem mem_map_setKey (f : String × α → β) {m : List (String × α)}
    {k : String} {v : α} {x : β} (h : x ∈ (setKey m k v).map f) :
    x ∈ m.map f ∨ x = f (k, v) := by
  induction m with
  | nil =>
    simp [setKey] at h
    exact Or.inr h
  | cons p rest ih =>
    by_cases hk : p.1 = k
    · simp only [setKey, if_pos hk, List.map_cons, List.mem_cons] at h
      rcases h with h | h
      · exact Or.inr h
      · exact Or.inl (List.mem_cons_of_mem _ h)
    · simp only [setKey, if_neg hk, List.map_cons, List.mem_cons] at h
      rcases h with h | h
      · exact Or.inl (List.mem_cons.mpr (Or.inl h))
      · rcases ih h with h2 | h2
        · exact Or.inl (List.mem_cons_of_mem _ h2)
        · exact Or.inr h2

theorem pairwise_map_setKey (f : String × α → β) {m : List (String × α)}
    (k : String) (v : α)
    (hp : List.Pairwise (fun a b => a ≠ b) (m.map f))
    (ha : ∀ p ∈ m, f p ≠ f (k, v)) :
    List.Pairwise (fun a b => a ≠ b) ((setKey m k v).map f) := by
  induction m with
  | nil => simp [setKey]
  | cons p rest ih =>
    simp only [List.map_cons, List.pairwise_cons] at hp
    by_cases hk : p.1 = k
    · simp only [setKey, if_pos hk, List.map_cons, List.pairwise_cons]
      refine ⟨?_, hp.2⟩
      intro x hx
      obtain ⟨q, hq, rfl⟩ := List.mem_map.mp hx
      exact Ne.symm (ha q (List.mem_cons_of_mem p hq))
    · simp only [setKey, if_neg hk, List.map_cons, List.pairwise_cons]
      constructor
      · intro x hx
        rcases mem_map_setKey f hx with h2 | h2
        · exact hp.1 x h2
        · rw [h2]
          exact ha p (List.mem_cons_self p rest)
      · exact ih hp.2 (fun q hq => ha q (List.mem_cons_of_mem p hq))

end AssocLemmas

theorem isUniqueAddress_spec {address : Option Json} {wallets : List Wallet}
    (h : isUniqueAddress address wallets = true) :
    ∃ a, address = some (Json.str a) ∧ a ≠ "" ∧ ∀ w ∈ wallets, w.account.address ≠ a := by
  cases address with
  | none => simp [isUniqueAddress] at h
  | some j =>
    cases j with
    | str a =>
      simp only [isUniqueAddress, Bool.and_eq_true, bne_iff_ne, ne_eq, List.all_eq_true] at h
      refine ⟨a, rfl, h.1, ?_⟩
      intro w hw
      simpa using h.2 w hw
    | null => simp [isUniqueAddress] at h
    | bool b => simp [isUniqueAddress] at h
    | num n => simp [isUniqueAddress] at h
    | arr xs => simp [isUniqueAddress] at h
    | obj fs => simp [isUniqueAddress] at h

theorem isUniqueAddress_iff (address : Option Json) (wallets : List Wallet) :
    isUniqueAddress address wallets = true ↔
      ∃ a, address = some (Json.str a) ∧ a ≠ "" ∧ ∀ w ∈ wallets, w.account.address ≠ a := by
  constructor
  · exact isUniqueAddress_spec
  · rintro ⟨a, rfl, hne, hall⟩
    simp only [isUniqueAddress, Bool.and_eq_true, bne_iff_ne, ne_eq, List.all_eq_true]
    refine ⟨hne, ?_⟩
    intro w hw
    simpa using hall w hw

theorem walletsWF_setKey {m : List (String × Wallet)} (k : String) (w : Wallet)
    (hwf : WalletsWF m) (ha : ∀ p ∈ m, p.2.account.address ≠ w.account.address) :
    WalletsWF (setKey m k w) := by
  constructor
  · by_cases h : k ∈ m.map (fun p => p.1)
    · rw [keys_setKey_of_mem h]
      exact hwf.1
    · rw [keys_setKey_of_not_mem h]
      rw [List.nodup_append]
      refine ⟨hwf.1, List.nodup_singleton k, ?_⟩
      intro a ha1 ha2
      simp only [List.mem_singleton] at ha2
      subst ha2
      exact h ha1
  · exact pairwise_map_setKey (fun p => p.2.account.address) k w hwf.2
      (fun p hp => ha p hp)

theorem walletsWF_setKey_same {m : List (String × Wallet)} {k : String} {w : Wallet}
    (w2 : Wallet) (hl : lookupKey m k = some w) (hwf : WalletsWF m)
    (haddr : w2.account.address = w.account.address) :
    WalletsWF (setKey m k w2) := by
  constructor
  · rw [keys_setKey_of_mem (mem_keys_of_lookupKey hl)]
    exact hwf.1
  · rw [map_setKey_of_lookupKey (fun p => p.2.account.address) hl w2 haddr]
    exact hwf.2

theorem walletsWF_delKey {m : List (String × Wallet)} (k : String)
    (hwf : WalletsWF m) : WalletsWF (delKey m k) := by
  constructor
  · exact List.Nodup.sublist (List.Sublist.map _ (delKey_sublist m k)) hwf.1
  · exact List.Pairwise.sublist (List.Sublist.map _ (delKey_sublist m k)) hwf.2

theorem walletsWF_createAccount (s : KeyringState) (options : List (String × Json))
    (freshId : String) (emitRes : Except String Unit)
    (hwf : WalletsWF s.wallets) :
    WalletsWF (createAccount s options freshId emitRes).state.wallets := by
  by_cases hu : isUniqueAddress (lookupKey options "address") (s.wallets.map (fun p => p.2)) = true
  · obtain ⟨a, ha, hne, hall⟩ := isUniqueAddress_spec hu
    have hca : castAddress options = a := by simp [castAddress, ha]
    have hdist : ∀ p ∈ s.wallets, p.2.account.address ≠
        (⟨mkAccount freshId options (castAddress options),
          lookupKey options "hdPath", true⟩ : Wallet).account.address := by
      intro p hp
      simp only [mkAccount, hca]
      exact hall p.2 (List.mem_map.mpr ⟨p, hp, rfl⟩)
    have h1 : WalletsWF (setKey s.wallets freshId
        ⟨mkAccount freshId options (castAddress options), lookupKey options "hdPath", true⟩) :=
      walletsWF_setKey _ _ hwf hdist
    cases emitRes with
    | error msg => simpa [createAccount, hu] using h1
    | ok u =>
      have hl := lookupKey_setKey_self s.wallets freshId
        (⟨mkAccount freshId options (castAddress options), lookupKey options "hdPath", true⟩ : Wallet)
      have h2 := walletsWF_setKey_same
        ⟨mkAccount freshId options (castAddress options), lookupKey options "hdPath", false⟩
        hl h1 rfl
      simpa [createAccount, hu] using h2
  · simpa [createAccount, hu] using hwf

theorem walletsWF_updateAccount (s : KeyringState) (account : KeyringAccount)
    (emitRes : Except String Unit) (hwf : WalletsWF s.wallets) :
    WalletsWF (updateAccount s account emitRes).state.wallets := by
  cases hl : lookupKey s.wallets account.id with
  | none => simpa [updateAccount, hl] using hwf
  | some wallet =>
    cases emitRes with
    | error msg => simpa [updateAccount, hl] using hwf
    | ok u =>
      have h2 := walletsWF_setKey_same
        { wallet with account := { account with address := wallet.account.address } }
        hl hwf rfl
      simpa [updateAccount, hl] using h2

theorem walletsWF_deleteAccount (s : KeyringState) (id : String)
    (emitRes : Except String Unit) (hwf : WalletsWF s.wallets) :
    WalletsWF (deleteAccount s id emitRes).state.wallets := by
  cases emitRes with
  | error msg => simpa [deleteAccount] using hwf
  | ok u => simpa [deleteAccount] using walletsWF_delKey id hwf

theorem walletsWF_runOp (s : KeyringState) (op : KOp) (hwf : WalletsWF s.wallets) :
    WalletsWF (runOp s op).wallets := by
  cases op with
  | create options freshId emitRes => exact walletsWF_createAccount s options freshId emitRes hwf
  | update account emitRes => exact walletsWF_updateAccount s account emitRes hwf
  | delete id emitRes => exact walletsWF_deleteAccount s id emitRes hwf

theorem walletsWF_runOps (ops : List KOp) (s : KeyringState) (hwf : WalletsWF s.wallets) :
    WalletsWF (runOps s ops).wallets := by
  induction ops generalizing s with
  | nil => exact hwf
  | cons op rest ih => exact ih (runOp s op) (walletsWF_runOp s op hwf)

theorem payloadString_eq_some {d : List (String × Json)} {v : String} :
    payloadString d = some v ↔ lookupKey d "data" = some (Json.str v) := by
  constructor
  · intro h
    cases hd : lookupKey d "data" with
    | none => simp [payloadString, hd] at h
    | some j =>
      cases j with
      | str w =>
        simp only [payloadString, hd, Option.some.injEq] at h
        subst h
        rfl
      | null => simp [payloadString, hd] at h
      | bool b => simp [payloadString, hd] at h
      | num n => simp [payloadString, hd] at h
      | arr xs => simp [payloadString, hd] at h
      | obj fs => simp [payloadString, hd] at h
  · intro h
    simp [payloadString, h]

/-- Claim C8: `submitRequest(r)` followed immediately by `getRequest(r.id)`
returns a request equal to `r`; submitting a second request with the same id
overwrites the first, so `getRequest` then returns the later one. -/
theorem C8_submit_get_round_trip (s : KeyringState) (env : Env)
    (r r2 : KeyringRequest) (h : r2.id = r.id) :
    getRequest (submitRequest s env r).state r.id = Except.ok r ∧
    getRequest (submitRequest (submitRequest s env r).state env r2).state r.id =
      Except.ok r2 := by
  constructor
  · simp [getRequest, submitRequest, lookupKey_setKey_self]
  · simp only [getRequest, submitRequest, h, lookupKey_setKey_self]

theorem C8_submit_get_round_trip_witness :
    getRequest (submitRequest emptyState sampleEnv (sampleReq "personal_sign")).state
        (sampleReq "personal_sign").id = Except.ok (sampleReq "personal_sign") ∧
    getRequest (submitRequest (submitRequest emptyState sampleEnv (sampleReq "personal_sign")).state
        sampleEnv (sampleReq "eth_sign")).state (sampleReq "personal_sign").id =
      Except.ok (sampleReq "eth_sign") :=
  C8_submit_get_round_trip emptyState sampleEnv (sampleReq "personal_sign")
    (sampleReq "eth_sign") rfl

/-- Claim C9: `submitRequest(r)` never returns a signing result: it always
succeeds with `{pending: true, redirect: {url, message}}` carrying the fixed
message, where `url` is the environment-selected dapp origin (production
endpoint when `NODE_ENV` is `"production"`, development endpoint otherwise)
and may be absent when the environment is not configured, without the call
raising an error. -/
theorem C9_submit_always_pending (s : KeyringState) (env : Env) (r : KeyringRequest) :
    (submitRequest s env r).res =
      Except.ok (SubmitResponse.pendingRedirect (getCurrentUrl env)
        "Redirecting to Gardio Snap to sign transaction") ∧
    (∀ j, (submitRequest s env r).res ≠ Except.ok (SubmitResponse.result j)) ∧
    (env.nodeEnv = some "production" → getCurrentUrl env = env.dappOriginProduction) ∧
    (env.nodeEnv ≠ some "production" → getCurrentUrl env = env.dappOriginDevelopment) := by
  refine ⟨rfl, ?_, ?_, ?_⟩
  · intro j hj
    simp [submitRequest] at hj
  · intro hp
    simp [getCurrentUrl, hp]
  · intro hp
    simp [getCurrentUrl, hp]

theorem C9_submit_always_pending_witness :
    (submitRequest emptyState noEnv (sampleReq "personal_sign")).res =
      Except.ok (SubmitResponse.pendingRedirect (getCurrentUrl noEnv)
        "Redirecting to Gardio Snap to sign transaction") ∧
    getCurrentUrl noEnv = none :=
  ⟨(C9_submit_always_pending emptyState noEnv (sampleReq "personal_sign")).1,
   (C9_submit_always_pending emptyState noEnv (sampleReq "personal_sign")).2.2.2
     (by simp [noEnv])⟩

theorem not_mem_keys_delKey {α : Type} (m : List (String × α)) (k : String) :
    k ∉ (delKey m k).map (fun p => p.1) := by
  induction m with
  | nil => simp [delKey]
  | cons p rest ih =>
    by_cases h : p.1 = k
    · simpa [delKey, h] using ih
    · simp only [delKey, if_neg h, List.map_cons, List.mem_cons]
      push_neg
      exact ⟨fun hc => h hc.symm, ih⟩

theorem approveRequest_ok_pending {s : KeyringState} {id : String}
    {data : Option (List (String × Json))} {e : Except String Unit}
    (h : (approveRequest s id data e).res = Except.ok ()) :
    (approveRequest s id data e).state.pendingRequests = delKey s.pendingRequests id := by
  cases hk : lookupKey s.pendingRequests id with
  | none => simp [approveRequest, hk] at h
  | some kr =>
    cases hs : shapeResult kr.request.method data with
    | error er => simp [approveRequest, hk, hs] at h
    | ok result =>
      cases e with
      | error msg => simp [approveRequest, hk, hs] at h
      | ok u => simp [approveRequest, hk, hs]

theorem rejectRequest_ok_pending {s : KeyringState} {id : String}
    {e : Except String Unit}
    (h : (rejectRequest s id e).res = Except.ok ()) :
    (rejectRequest s id e).state.pendingRequests = delKey s.pendingRequests id := by
  cases hk : lookupKey s.pendingRequests id with
  | none => simp [rejectRequest, hk] at h
  | some kr =>
    cases e with
    | error msg => simp [rejectRequest, hk] at h
    | ok u => simp [rejectRequest, hk]

theorem approveRequest_absent {s : KeyringState} {id : String}
    (data : Option (List (String × Json))) (e : Except String Unit)
    (h : lookupKey s.pendingRequests id = none) :
    approveRequest s id data e = ⟨Except.error KErr.notFound, s, []⟩ := by
  simp [approveRequest, h]

theorem rejectRequest_absent {s : KeyringState} {id : String}
    (e : Except String Unit)
    (h : lookupKey s.pendingRequests id = none) :
    rejectRequest s id e = ⟨Except.error KErr.notFound, s, []⟩ := by
  simp [rejectRequest, h]

/-- Claim C3: a successful `approveRequest(id, data)` or `rejectRequest(id)`
removes the pending entry, so any subsequent `getRequest(id)`,
`approveRequest(id, ...)` or `rejectRequest(id)` fails NotFound; and calling
`approveRequest` or `rejectRequest` on an id not in `pendingRequests` fails
NotFound without changing the state. -/
theorem C3_exactly_once_resolution (s : KeyringState) (id : String)
    (data data2 : Option (List (String × Json))) (e e2 : Except String Unit) :
    ((approveRequest s id data e).res = Except.ok () →
      lookupKey (approveRequest s id data e).state.pendingRequests id = none ∧
      getRequest (approveRequest s id data e).state id = Except.error KErr.notFound ∧
      (approveRequest (approveRequest s id data e).state id data2 e2).res =
        Except.error KErr.notFound ∧
      (rejectRequest (approveRequest s id data e).state id e2).res =
        Except.error KErr.notFound) ∧
    ((rejectRequest s id e).res = Except.ok () →
      lookupKey (rejectRequest s id e).state.pendingRequests id = none ∧
      getRequest (rejectRequest s id e).state id = Except.error KErr.notFound ∧
      (approveRequest (rejectRequest s id e).state id data2 e2).res =
        Except.error KErr.notFound ∧
      (rejectRequest (rejectRequest s id e).state id e2).res =
        Except.error KErr.notFound) ∧
    (lookupKey s.pendingRequests id = none →
      approveRequest s id data e = ⟨Except.error KErr.notFound, s, []⟩ ∧
      rejectRequest s id e = ⟨Except.error KErr.notFound, s, []⟩) := by
  refine ⟨?_, ?_, ?_⟩
  · intro h
    have hp := approveRequest_ok_pending h
    have hnone : lookupKey (approveRequest s id data e).state.pendingRequests id = none := by
      rw [hp]
      exact lookupKey_delKey_self _ _
    exact ⟨hnone, by simp [getRequest, hnone],
      by rw [approveRequest_absent data2 e2 hnone],
      by rw [rejectRequest_absent e2 hnone]⟩
  · intro h
    have hp := rejectRequest_ok_pending h
    have hnone : lookupKey (rejectRequest s id e).state.pendingRequests id = none := by
      rw [hp]
      exact lookupKey_delKey_self _ _
    exact ⟨hnone, by simp [getRequest, hnone],
      by rw [approveRequest_absent data2 e2 hnone],
      by rw [rejectRequest_absent e2 hnone]⟩
  · intro h
    exact ⟨approveRequest_absent data e h, rejectRequest_absent e h⟩

theorem C3_exactly_once_resolution_witness :
    getRequest (approveRequest (reqState "personal_sign") "r1"
        (some [("data", Json.str "0xdead")]) (Except.ok ())).state "r1" =
      Except.error KErr.notFound :=
  ((C3_exactly_once_resolution (reqState "personal_sign") "r1"
      (some [("data", Json.str "0xdead")]) none (Except.ok ()) (Except.ok ())).1
    rfl).2.1

/-- Claim C4 (amended): if the notification emission fails after the request
has been removed from the queue, the removal is not rolled back (the entry
stays removed and the removal was persisted), but the operation does not
report success: the emission error becomes the operation's failure result,
for `approveRequest` and `rejectRequest` alike. -/
theorem C4_emit_failure_not_rolled_back (s : KeyringState) (id : String)
    (data : Option (List (String × Json))) (msg : String)
    (h : (approveRequest s id data (Except.ok ())).res = Except.ok ()) :
    ((approveRequest s id data (Except.error msg)).res =
        Except.error (KErr.emitFail msg) ∧
      lookupKey (approveRequest s id data (Except.error msg)).state.pendingRequests id =
        none ∧
      Effect.persist ∈ (approveRequest s id data (Except.error msg)).trace) ∧
    (∀ kr, lookupKey s.pendingRequests id = some kr →
      (rejectRequest s id (Except.error msg)).res = Except.error (KErr.emitFail msg) ∧
      lookupKey (rejectRequest s id (Except.error msg)).state.pendingRequests id = none ∧
      Effect.persist ∈ (rejectRequest s id (Except.error msg)).trace) := by
  constructor
  · cases hk : lookupKey s.pendingRequests id with
    | none => simp [approveRequest, hk] at h
    | some kr =>
      cases hs : shapeResult kr.request.method data with
      | error er => simp [approveRequest, hk, hs] at h
      | ok result =>
        refine ⟨by simp [approveRequest, hk, hs], ?_, by simp [approveRequest, hk, hs]⟩
        simp only [approveRequest, hk, hs]
        exact lookupKey_delKey_self _ _
  · intro kr hkr
    refine ⟨by simp [rejectRequest, hkr], ?_, by simp [rejectRequest, hkr]⟩
    simp only [rejectRequest, hkr]
    exact lookupKey_delKey_self _ _

theorem C4_emit_failure_not_rolled_back_witness :
    (approveRequest (reqState "personal_sign") "r1" (some [("data", Json.str "0xdead")])
        (Except.error "channel closed")).res =
      Except.error (KErr.emitFail "channel closed") :=
  ((C4_emit_failure_not_rolled_back (reqState "personal_sign") "r1"
      (some [("data", Json.str "0xdead")]) "channel closed") rfl).1.1

/-- Claim C4 as frozen is false: against `src/keyring.ts`, an emission
failure inside `approveRequest` (and the unguarded one in `rejectRequest`)
is reported to the caller as the operation's failure, not swallowed: at this
concrete input the call returns the emission error instead of success. -/
theorem C4_counterexample :
    (approveRequest (reqState "personal_sign") "r1" (some [("data", Json.str "0xdead")])
        (Except.error "emit failed")).res = Except.error (KErr.emitFail "emit failed") ∧
    (approveRequest (reqState "personal_sign") "r1" (some [("data", Json.str "0xdead")])
        (Except.error "emit failed")).res ≠ Except.ok () ∧
    (rejectRequest (reqState "eth_sign") "r1" (Except.error "emit failed")).res ≠
      Except.ok () := by
  refine ⟨rfl, ?_, ?_⟩ <;>
    simp [approveRequest, rejectRequest, reqState, sampleReq, lookupKey, shapeResult,
      payloadString, stringPayloadMethod, structuredPayloadMethod, EthMethod.personalSign,
      EthMethod.sign, EthMethod.signTransaction, EthMethod.signTypedDataV1,
      EthMethod.signTypedDataV3, EthMethod.signTypedDataV4, EthMethod.prepareUserOperation,
      EthMethod.patchUserOperation, EthMethod.signUserOperation]

/-- Claim C5: `createAccount(options)` requires `options.address` to be a
non-empty string different from every existing wallet's address (the
condition characterized by the final equivalence); when the requirement
fails the call fails DuplicateAddress with the state exactly unchanged (no
wallet added, every existing wallet untouched, nothing emitted or
persisted); when it holds the call never fails DuplicateAddress. -/
theorem C5_create_duplicate_address (s : KeyringState)
    (options : List (String × Json)) (freshId : String) (emitRes : Except String Unit) :
    (isUniqueAddress (lookupKey options "address") (s.wallets.map (fun p => p.2)) = true →
      (createAccount s options freshId emitRes).res ≠ Except.error KErr.duplicateAddress) ∧
    (isUniqueAddress (lookupKey options "address") (s.wallets.map (fun p => p.2)) = false →
      createAccount s options freshId emitRes = ⟨Except.error KErr.duplicateAddress, s, []⟩) ∧
    (isUniqueAddress (lookupKey options "address") (s.wallets.map (fun p => p.2)) = true ↔
      ∃ a, lookupKey options "address" = some (Json.str a) ∧ a ≠ "" ∧
        ∀ w ∈ s.wallets.map (fun p => p.2), w.account.address ≠ a) := by
  refine ⟨?_, ?_, isUniqueAddress_iff _ _⟩
  · intro hu
    cases emitRes with
    | error msg => simp [createAccount, hu]
    | ok u => simp [createAccount, hu]
  · intro hu
    simp [createAccount, hu]

theorem C5_create_duplicate_address_witness :
    createAccount walletState [("address", Json.str "0xAAA")] "id2" (Except.ok ()) =
      ⟨Except.error KErr.duplicateAddress, walletState, []⟩ :=
  (C5_create_duplicate_address walletState [("address", Json.str "0xAAA")] "id2"
    (Except.ok ())).2.1 rfl

/-- Claim C6: for a stored account A and an update payload with A's id but a
different address X, `updateAccount` succeeds and the stored account's
address remains A's address, while every other incoming field is merged over
the stored account (the stored wallet becomes the incoming account with the
original address restored, keeping its derivation path and creation flag). -/
theorem C6_update_address_readonly (s : KeyringState) (incoming : KeyringAccount)
    (w : Wallet) (hw : lookupKey s.wallets incoming.id = some w)
    (hx : incoming.address ≠ w.account.address) :
    (updateAccount s incoming (Except.ok ())).res = Except.ok () ∧
    lookupKey (updateAccount s incoming (Except.ok ())).state.wallets incoming.id =
      some { w with account := { incoming with address := w.account.address } } := by
  constructor
  · simp [updateAccount, hw]
  · simp only [updateAccount, hw]
    exact lookupKey_setKey_self _ _ _

theorem C6_update_address_readonly_witness :
    (updateAccount walletState (mkAccount "a1" [] "0xBBB") (Except.ok ())).res =
        Except.ok () ∧
    lookupKey (updateAccount walletState (mkAccount "a1" [] "0xBBB")
        (Except.ok ())).state.wallets "a1" =
      some { sampleWallet with
        account := { mkAccount "a1" [] "0xBBB" with address := "0xAAA" } } :=
  C6_update_address_readonly walletState (mkAccount "a1" [] "0xBBB") sampleWallet rfl
    (by simp [mkAccount, sampleWallet, sampleAccount])

/-- Claim C7 (amended): `deleteAccount(id)` attempts the `AccountDeleted`
emission first; when the emission succeeds it removes the wallet entry and
persists, after which `getAccount(id)` fails NotFound and `id` keys no entry
feeding `listAccounts()`; when the emission fails, the error is surfaced and
the entry is not removed (the state is unchanged). -/
theorem C7_delete_emits_then_removes (s : KeyringState) (id : String) (msg : String) :
    ((deleteAccount s id (Except.ok ())).res = Except.ok () ∧
      (deleteAccount s id (Except.ok ())).trace =
        [Effect.emitAccountDeleted id, Effect.persist] ∧
      (deleteAccount s id (Except.ok ())).state.wallets = delKey s.wallets id ∧
      getAccount (deleteAccount s id (Except.ok ())).state id = Except.error KErr.notFound ∧
      id ∉ ((deleteAccount s id (Except.ok ())).state.wallets.map (fun p => p.1)) ∧
      listAccounts (deleteAccount s id (Except.ok ())).state =
        (delKey s.wallets id).map (fun p => p.2.account)) ∧
    deleteAccount s id (Except.error msg) =
      ⟨Except.error (KErr.emitFail msg), s, [Effect.emitAccountDeleted id]⟩ := by
  refine ⟨⟨rfl, rfl, rfl, ?_, ?_, rfl⟩, rfl⟩
  · have hnone : lookupKey (deleteAccount s id (Except.ok ())).state.wallets id = none := by
      simp only [deleteAccount]
      exact lookupKey_delKey_self _ _
    simp [getAccount, hnone]
  · simp only [deleteAccount]
    exact not_mem_keys_delKey _ _

/-- Claim C7 as frozen is false: against `src/keyring.ts` the removal is not
performed "regardless of whether the emission succeeded": when the emission
fails, the catch rethrows before the deletion runs, so the wallet is still
present and `getAccount(id)` still succeeds. -/
theorem C7_counterexample :
    (deleteAccount walletState "a1" (Except.error "emit failed")).res ≠ Except.ok () ∧
    lookupKey (deleteAccount walletState "a1" (Except.error "emit failed")).state.wallets
        "a1" = some sampleWallet ∧
    getAccount (deleteAccount walletState "a1" (Except.error "emit failed")).state "a1" =
      Except.ok sampleAccount := by
  refine ⟨?_, rfl, rfl⟩
  simp [deleteAccount]

theorem stringPayload_not_structured {m : String}
    (hs : stringPayloadMethod m = true) : structuredPayloadMethod m = false := by
  simp only [stringPayloadMethod, Bool.or_eq_true, beq_iff_eq] at hs
  rcases hs with ((((h | h) | h) | h) | h) | h <;> subst h <;> rfl

theorem structuredPayload_not_string {m : String}
    (h : structuredPayloadMethod m = true) : stringPayloadMethod m = false := by
  simp only [structuredPayloadMethod, Bool.or_eq_true, beq_iff_eq] at h
  rcases h with (h | h) | h <;> subst h <;> rfl

/-- Claim C1 (amended): for a pending request, `approveRequest(id, data)`
dispatches on the request's method: for the string-payload methods it
succeeds exactly when `data` is a supplied object whose `data` field is a
string (and the emission also succeeds), that string becoming the emitted
result; for the structured-payload methods it succeeds exactly when `data`
is a supplied object (and the emission succeeds), `data` itself becoming the
emitted result; for any method outside these two groups it fails
UnsupportedMethod when `data` is an object, but InvalidData when `data` is
undefined, because the undefined check on `data` runs before the method
dispatch. -/
theorem C1_approve_dispatch (s : KeyringState) (id : String)
    (data : Option (List (String × Json))) (emitRes : Except String Unit)
    (kr : KeyringRequest) (hk : lookupKey s.pendingRequests id = some kr) :
    (stringPayloadMethod kr.request.method = true →
      (((approveRequest s id data emitRes).res = Except.ok ()) ↔
        (emitRes = Except.ok () ∧
          ∃ d v, data = some d ∧ lookupKey d "data" = some (Json.str v))) ∧
      (∀ d v, data = some d → lookupKey d "data" = some (Json.str v) →
        Effect.emitRequestApproved id (ApproveResult.str v) ∈
          (approveRequest s id data emitRes).trace)) ∧
    (structuredPayloadMethod kr.request.method = true →
      (((approveRequest s id data emitRes).res = Except.ok ()) ↔
        (emitRes = Except.ok () ∧ ∃ d, data = some d)) ∧
      (∀ d, data = some d →
        Effect.emitRequestApproved id (ApproveResult.obj d) ∈
          (approveRequest s id data emitRes).trace)) ∧
    (stringPayloadMethod kr.request.method = false →
      structuredPayloadMethod kr.request.method = false →
      (∀ d, data = some d →
        (approveRequest s id data emitRes).res = Except.error KErr.unsupportedMethod) ∧
      (data = none →
        (approveRequest s id data emitRes).res = Except.error KErr.invalidData)) := by
  refine ⟨?_, ?_, ?_⟩
  · intro hs
    constructor
    · constructor
      · intro hok
        cases data with
        | none => simp [approveRequest, hk, shapeResult] at hok
        | some d =>
          cases hv : payloadString d with
          | none => simp [approveRequest, hk, shapeResult, hs, hv] at hok
          | some v =>
            cases emitRes with
            | error msg => simp [approveRequest, hk, shapeResult, hs, hv] at hok
            | ok u => exact ⟨rfl, d, v, rfl, payloadString_eq_some.mp hv⟩
      · rintro ⟨he, d, v, rfl, hd⟩
        subst he
        have hv : payloadString d = some v := payloadString_eq_some.mpr hd
        simp [approveRequest, hk, shapeResult, hs, hv]
    · rintro d v rfl hd
      have hv : payloadString d = some v := payloadString_eq_some.mpr hd
      cases emitRes with
      | error msg => simp [approveRequest, hk, shapeResult, hs, hv]
      | ok u => simp [approveRequest, hk, shapeResult, hs, hv]
  · intro hstr
    have hsf := structuredPayload_not_string hstr
    constructor
    · constructor
      · intro hok
        cases data with
        | none => simp [approveRequest, hk, shapeResult] at hok
        | some d =>
          cases emitRes with
          | error msg => simp [approveRequest, hk, shapeResult, hsf, hstr] at hok
          | ok u => exact ⟨rfl, d, rfl⟩
      · rintro ⟨he, d, rfl⟩
        subst he
        simp [approveRequest, hk, shapeResult, hsf, hstr]
    · rintro d rfl
      cases emitRes with
      | error msg => simp [approveRequest, hk, shapeResult, hsf, hstr]
      | ok u => simp [approveRequest, hk, shapeResult, hsf, hstr]
  · intro hsf hstrf
    constructor
    · rintro d rfl
      simp [approveRequest, hk, shapeResult, hsf, hstrf]
    · rintro rfl
      simp [approveRequest, hk, shapeResult]

theorem C1_approve_dispatch_witness :
    (approveRequest (reqState "personal_sign") "r1" (some [("data", Json.str "0xdead")])
        (Except.ok ())).res = Except.ok () :=
  (((C1_approve_dispatch (reqState "personal_sign") "r1"
      (some [("data", Json.str "0xdead")]) (Except.ok ()) (sampleReq "personal_sign")
      rfl).1 rfl).1).mpr ⟨rfl, [("data", Json.str "0xdead")], "0xdead", rfl, rfl⟩

/-- Claim C1 as frozen is false: for a method outside both groups the call
does not always fail UnsupportedMethod: with `data` undefined it fails
InvalidData, because the undefined check on `data` precedes the dispatch. -/
theorem C1_counterexample :
    (approveRequest (reqState "eth_foo") "r1" none (Except.ok ())).res =
      Except.error KErr.invalidData ∧
    (approveRequest (reqState "eth_foo") "r1" none (Except.ok ())).res ≠
      Except.error KErr.unsupportedMethod := by
  refine ⟨rfl, ?_⟩
  simp [approveRequest, reqState, sampleReq, lookupKey, shapeResult]

/-- Claim C2: address uniqueness is an invariant of every reachable state:
starting from a well-formed state, every sequence of `createAccount`,
`updateAccount` and `deleteAccount` operations (with arbitrary emission
outcomes) preserves that no two wallets hold the same address; moreover
`createAccount` rejects an address colliding with any stored wallet, and
`updateAccount` never changes any stored address. -/
theorem C2_address_uniqueness (ops : List KOp) (s : KeyringState)
    (h : WalletsWF s.wallets) :
    WalletsWF (runOps s ops).wallets ∧
    (∀ options freshId emitRes p, p ∈ s.wallets →
      lookupKey options "address" = some (Json.str p.2.account.address) →
      (createAccount s options freshId emitRes).res =
        Except.error KErr.duplicateAddress) ∧
    (∀ account emitRes,
      (updateAccount s account emitRes).state.wallets.map (fun p => p.2.account.address) =
        s.wallets.map (fun p => p.2.account.address)) := by
  refine ⟨walletsWF_runOps ops s h, ?_, ?_⟩
  · intro options freshId emitRes p hp hlook
    have hu : isUniqueAddress (lookupKey options "address")
        (s.wallets.map (fun q => q.2)) ≠ true := by
      intro hT
      obtain ⟨a, ha2, hne, hall⟩ := isUniqueAddress_spec hT
      rw [hlook] at ha2
      injection ha2 with h3
      injection h3 with h4
      exact hall p.2 (List.mem_map.mpr ⟨p, hp, rfl⟩) h4
    have hu2 : isUniqueAddress (lookupKey options "address")
        (s.wallets.map (fun q => q.2)) = false := by
      cases hb : isUniqueAddress (lookupKey options "address")
          (s.wallets.map (fun q => q.2)) with
      | true => exact absurd hb hu
      | false => rfl
    simp [createAccount, hu2]
  · intro account emitRes
    cases hl : lookupKey s.wallets account.id with
    | none => simp [updateAccount, hl]
    | some wallet =>
      cases emitRes with
      | error msg => simp [updateAccount, hl]
      | ok u =>
        simp only [updateAccount, hl]
        exact map_setKey_of_lookupKey (fun p => p.2.account.address) hl
          { wallet with account := { account with address := wallet.account.address } }
          (rfl : wallet.account.address = wallet.account.address)

theorem C2_address_uniqueness_witness :
    WalletsWF (runOps emptyState
      [KOp.create [("address", Json.str "0xAAA")] "id1" (Except.ok ()),
       KOp.create [("address", Json.str "0xBBB")] "id2" (Except.ok ()),
       KOp.delete "id1" (Except.ok ())]).wallets :=
  (C2_address_uniqueness
    [KOp.create [("address", Json.str "0xAAA")] "id1" (Except.ok ()),
     KOp.create [("address", Json.str "0xBBB")] "id2" (Except.ok ()),
     KOp.delete "id1" (Except.ok ())]
    emptyState ⟨List.Pairwise.nil, List.Pairwise.nil⟩).1

/-- Claim C10: when the `AccountCreated` emission inside `createAccount`
fails (for options passing the uniqueness check), the call raises the
emission error to the caller, yet the new wallet has already been inserted
into the in-memory wallet map with `pendingCreation = true` and remains
observable via `getAccount`, `listAccounts` and `IsPendingCreation`, while
`persist` is never invoked in that call: the state is not rolled back. -/
theorem C10_create_emit_failure (s : KeyringState) (options : List (String × Json))
    (freshId : String) (msg : String)
    (hu : isUniqueAddress (lookupKey options "address")
      (s.wallets.map (fun p => p.2)) = true) :
    (createAccount s options freshId (Except.error msg)).res =
      Except.error (KErr.emitFail msg) ∧
    lookupKey (createAccount s options freshId (Except.error msg)).state.wallets freshId =
      some ⟨mkAccount freshId options (castAddress options),
        lookupKey options "hdPath", true⟩ ∧
    getAccount (createAccount s options freshId (Except.error msg)).state freshId =
      Except.ok (mkAccount freshId options (castAddress options)) ∧
    mkAccount freshId options (castAddress options) ∈
      listAccounts (createAccount s options freshId (Except.error msg)).state ∧
    IsPendingCreation (createAccount s options freshId (Except.error msg)).state = true ∧
    Effect.persist ∉ (createAccount s options freshId (Except.error msg)).trace := by
  have hstate : (createAccount s options freshId (Except.error msg)).state.wallets =
      setKey s.wallets freshId ⟨mkAccount freshId options (castAddress options),
        lookupKey options "hdPath", true⟩ := by
    simp [createAccount, hu]
  have hlk : lookupKey (createAccount s options freshId
        (Except.error msg)).state.wallets freshId =
      some ⟨mkAccount freshId options (castAddress options),
        lookupKey options "hdPath", true⟩ := by
    rw [hstate]
    exact lookupKey_setKey_self _ _ _
  have hmem := mem_of_lookupKey hlk
  refine ⟨by simp [createAccount, hu], hlk, by simp [getAccount, hlk], ?_, ?_, ?_⟩
  · simp only [listAccounts]
    exact List.mem_map.mpr ⟨_, hmem, rfl⟩
  · simp only [IsPendingCreation, List.any_eq_true]
    exact ⟨_, hmem, rfl⟩
  · simp [createAccount, hu]

theorem C10_create_emit_failure_witness :
    (createAccount emptyState [("address", Json.str "0xAAA")] "id1"
        (Except.error "emit failed")).res = Except.error (KErr.emitFail "emit failed") ∧
    IsPendingCreation (createAccount emptyState [("address", Json.str "0xAAA")] "id1"
        (Except.error "emit failed")).state = true ∧
    Effect.persist ∉ (createAccount emptyState [("address", Json.str "0xAAA")] "id1"
        (Except.error "emit failed")).trace :=
  ⟨(C10_create_emit_failure emptyState [("address", Json.str "0xAAA")] "id1"
      "emit failed" rfl).1,
   (C10_create_emit_failure emptyState [("address", Json.str "0xAAA")] "id1"
      "emit failed" rfl).2.2.2.2.1,
   (C10_create_emit_failure emptyState [("address", Json.str "0xAAA")] "id1"
      "emit failed" rfl).2.2.2.2.2⟩

theorem C7_delete_emits_then_removes_witness :
    getAccount (deleteAccount walletState "a1" (Except.ok ())).state "a1" =
      Except.error KErr.notFound :=
  ((C7_delete_emits_then_removes walletState "a1" "boom").1).2.2.2.1
